import Mathlib

/-!
Verification of the federated query-execution core of the bramble GraphQL
gateway (files execution2.go and execution2_test.go), as a shallow
embedding in Lean 4.

Modelling conventions, fixed once for the whole development:

* Go's dynamic JSON trees (`map[string]interface` braces, `[]interface`
  braces, `string`, `nil`, ...) are modelled by the inductive type `JSON`;
  Go maps become association lists whose key lists are duplicate-free
  wherever a claim needs genuine map behaviour.
* In-place mutation of maps and slices is modelled by returning the
  updated value: every Go function that mutates `dst`/`result` in place is
  embedded as a function that also returns the new tree.
* Go functions returning `(T, error)` are embedded as `Except String T`.
  Error strings follow the Go messages, except that the dynamic type name
  interpolated by the `%T` format verb, and the Go quoting around names,
  are omitted (they play no role in any claim).
* The recursive Go functions are embedded with an explicit recursion-depth
  budget (`fuel`), so that every definition is structurally recursive and
  evaluates by `rfl`. The budget is consumed once per nested call of the
  main recursive function; the per-element list walks are factored into
  structurally recursive helpers that take the recursive call as an
  argument, exactly as Go's `for` loops re-enter the recursion. The
  exported wrappers instantiate the budget generously (`sizeOf`-based), so
  on every input whose evaluation appears in a theorem below the budget is
  visibly never exhausted (no result is the `"model: out of fuel"`
  sentinel).
-/

namespace Bramble

/-- JSON value, the shallow embedding of Go's dynamic result trees.
`num` covers Go numbers; only `str`, `null`, `obj` and `arr` are
exercised by the claims. -/
inductive JSON where
  | null
  | str (s : String)
  | num (n : Int)
  | boolean (b : Bool)
  | obj (fields : List (String × JSON))
  | arr (elems : List JSON)
deriving Repr

mutual

/-- Structural equality test on JSON trees, the embedding of Go's `==` on
the dynamic values compared by the merger (in the source those are always
boundary-ID strings). -/
def JSON.beq : JSON → JSON → Bool
  | .null, .null => true
  | .str a, .str b => a == b
  | .num a, .num b => a == b
  | .boolean a, .boolean b => a == b
  | .obj a, .obj b => JSON.beqFields a b
  | .arr a, .arr b => JSON.beqElems a b
  | _, _ => false

def JSON.beqFields : List (String × JSON) → List (String × JSON) → Bool
  | [], [] => true
  | (k, v) :: r, (k', v') :: r' => k == k' && JSON.beq v v' && JSON.beqFields r r'
  | _, _ => false

def JSON.beqElems : List JSON → List JSON → Bool
  | [], [] => true
  | v :: r, v' :: r' => JSON.beq v v' && JSON.beqElems r r'
  | _, _ => false

end

instance : BEq JSON := ⟨JSON.beq⟩

mutual

/-- Computable size of a JSON tree, used only to instantiate the
recursion budgets of the fuelled embeddings. -/
def JSON.size : JSON → Nat
  | .obj fields => 1 + JSON.sizeFields fields
  | .arr elems => 1 + JSON.sizeElems elems
  | _ => 1

def JSON.sizeFields : List (String × JSON) → Nat
  | [] => 0
  | (_, v) :: rest => 1 + JSON.size v + JSON.sizeFields rest

def JSON.sizeElems : List JSON → Nat
  | [] => 0
  | v :: rest => 1 + JSON.size v + JSON.sizeElems rest

end

/-- Go map read `m[k]` (comma-ok form yields `Option`): the first binding
of `k`. Association lists with duplicate-free keys model Go maps. -/
def lookupJ : List (String × JSON) → String → Option JSON
  | [], _ => none
  | (k, v) :: rest, key => if k = key then some v else lookupJ rest key

/-- Go map write `m[k] = v`: replace the binding of `k`, or add a new
binding when `k` is absent. -/
def setKey : List (String × JSON) → String → JSON → List (String × JSON)
  | [], key, v => [(key, v)]
  | (k, w) :: rest, key, v =>
      if k = key then (key, v) :: rest else (k, w) :: setKey rest key v

/-- The `[]interface` loop of `extractBoundaryIDs` for a non-empty
insertion point: `for _, innerPtr := range ptr` visits the elements in
order, propagates the first error, and appends the extracted IDs
(`result = append(result, ids...)`). `recur` is the enclosing recursive
call with the same insertion point. -/
def extractBoundaryIDsListGo (recur : JSON → Except String (List String)) :
    List JSON → Except String (List String)
  | [] => .ok []
  | e :: es =>
    match recur e with
    | .error err => .error err
    | .ok ids =>
      match extractBoundaryIDsListGo recur es with
      | .error err => .error err
      | .ok more => .ok (ids ++ more)

/-- Embedding of `extractBoundaryIDs` (execution2.go), fuelled. With an
exhausted insertion point it reads only the key `"_id"` of a map — there
is no fallback to `"id"`. In the exhausted-insertion-point slice case the
Go loop is `for innerPtr := range ptr`, which binds the int _index_, so
the recursive call receives an `int` and falls into the `default` branch
of the type switch: a non-empty slice errors immediately ("unexpected
type: int") and an empty slice yields the empty result. With a non-empty
insertion point, a map looks up the head key (a missing key yields Go
`nil`, i.e. `JSON.null`, which the recursive call rejects in its
`default` branch); passing Go `nil` versus `insertionPoint[1:]` as the
remaining path of a single-segment path is the same empty path, so both
branches of the Go `if` are the single recursive call on the tail. -/
def extractBoundaryIDsF : Nat → JSON → List String → Except String (List String)
  | 0, _, _ => .error "model: out of fuel"
  | fuel + 1, data, insertionPoint =>
    match insertionPoint with
    | [] =>
      match data with
      | .obj fields =>
        match lookupJ fields "_id" with
        | none => .error "extractBoundaryIDs: unexpected missing _id in map"
        | some (.str s) => .ok [s]
        | some _ => .error "extractBoundaryIDs: unexpected non string _id in map"
      | .arr elems =>
        match elems with
        | [] => .ok []
        | _ :: _ => .error "extractBoundaryIDs: unexpected type: int"
      | _ => .error "extractBoundaryIDs: unexpected type"
    | key :: rest =>
      match data with
      | .obj fields =>
        match lookupJ fields key with
        | some v => extractBoundaryIDsF fuel v rest
        | none => extractBoundaryIDsF fuel .null rest
      | .arr elems =>
        extractBoundaryIDsListGo (fun e => extractBoundaryIDsF fuel e (key :: rest)) elems
      | _ => .error "extractBoundaryIDs: unexpected type"

/-- `extractBoundaryIDs` with its recursion budget instantiated: every
nested call descends either in the tree or in the insertion point, so
`data.size + insertionPoint.length + 1` levels are always enough. -/
def extractBoundaryIDs (data : JSON) (insertionPoint : List String) :
    Except String (List String) :=
  extractBoundaryIDsF (data.size + insertionPoint.length + 1) data insertionPoint

/-- The parent data of spec boundary scenario 3 and of the repo test
`TestExtractBoundaryIDs`: four gizmos whose owners carry `_id`, `id`,
`_id`, `id` respectively; the test expects IDs `["1", "1", "2", "5"]`. -/
def mixedKeysGizmosData : JSON :=
  .obj [("gizmos", .arr [
    .obj [("id", .str "1"), ("name", .str "Gizmo 1"), ("owner", .obj [("_id", .str "1")])],
    .obj [("id", .str "2"), ("name", .str "Gizmo 2"), ("owner", .obj [("id", .str "1")])],
    .obj [("id", .str "3"), ("name", .str "Gizmo 3"), ("owner", .obj [("_id", .str "2")])],
    .obj [("id", .str "4"), ("name", .str "Gizmo 4"), ("owner", .obj [("id", .str "5")])]])]

/-- `nodeAlias` (execution2_test.go): `fmt.Sprintf("_%d", i)`. -/
def nodeAlias (i : Nat) : String := "_" ++ toString i

/-- One character under Go's `%q` verb: quote and backslash are escaped.
(`%q` also escapes control and non-printable characters; no claim input
contains any.) -/
def goQuoteChar (c : Char) : String :=
  if c = '"' then "\\\"" else if c = '\\' then "\\\\" else String.singleton c

/-- Go's `fmt.Sprintf("%q", id)`: the string in double quotes. -/
def goQuote (s : String) : String :=
  "\"" ++ String.join (s.toList.map goQuoteChar) ++ "\""

/-- `BoundaryQuery` of the source: the boundary query name and whether the
backend exposes the array form. -/
structure BoundaryQuery where
  Query : String
  Array : Bool

/-- Embedding of `batchBy` (execution2.go), fuelled:
`for batchSize < len(items) ... items[0:batchSize]` peels consecutive
chunks, and the loop remainder is appended as the final batch. The Go
loop never terminates when `batchSize` is zero and `items` is non-empty;
the fuel models only the terminating executions (every claim assumes a
batch size of at least 1, for which `items.length + 1` levels always
suffice). -/
def batchByF {α : Type} : Nat → List α → Nat → List (List α)
  | 0, items, _ => [items]
  | fuel + 1, items, batchSize =>
    if batchSize < items.length then
      items.take batchSize :: batchByF fuel (items.drop batchSize) batchSize
    else [items]

/-- `batchBy` with its recursion budget instantiated. -/
def batchBy {α : Type} (items : List α) (batchSize : Nat) : List (List α) :=
  batchByF (items.length + 1) items batchSize

/-- One selection of a singular-form boundary document (execution2.go):
`fmt.Sprintf("%s: %s(id: %q) %s", nodeAlias(selectionIndex), Q, id, sel)`. -/
def singularSelection (queryName selectionSetQL : String) (i : Nat) (id : String) : String :=
  nodeAlias i ++ ": " ++ queryName ++ "(id: " ++ goQuote id ++ ") " ++ selectionSetQL

/-- The batch loop of `buildBoundaryQueryDocuments`: one document per
batch, whose selections are numbered by the running `selectionIndex`
(`idx`), which increases once per id and is carried — not reset — across
batches. `List.enumFrom idx batch` is exactly the inner
`for _, id := range batch ... selectionIndex++` walk. -/
def buildDocsAux (queryName selectionSetQL : String) :
    List (List String) → Nat → List String
  | [], _ => []
  | batch :: more, idx =>
    ("\x7b " ++ String.intercalate " "
        ((List.enumFrom idx batch).map fun p => singularSelection queryName selectionSetQL p.1 p.2)
      ++ " \x7d")
      :: buildDocsAux queryName selectionSetQL more (idx + batch.length)

/-- Embedding of `buildBoundaryQueryDocuments` (execution2.go). The Go
function receives `(ctx, schema, step, ids, parentTypeBoundaryField,
batchSize)` and first renders `step.SelectionSet` through
`formatSelectionSetSingleLine` (a function of another file, used purely
as a string); the embedding therefore takes the rendered selection set
`selectionSetQL` directly. The Go error result is always `nil`. -/
def buildBoundaryQueryDocuments (selectionSetQL : String) (ids : List String)
    (parentTypeBoundaryField : BoundaryQuery) (batchSize : Nat) : List String :=
  if parentTypeBoundaryField.Array then
    ["\x7b _result: " ++ parentTypeBoundaryField.Query
      ++ "(ids: [" ++ String.intercalate ", " (ids.map goQuote) ++ "]) "
      ++ selectionSetQL ++ " \x7d"]
  else
    buildDocsAux parentTypeBoundaryField.Query selectionSetQL (batchBy ids batchSize) 0

/-- The document a batch of already-numbered ids is rendered to:
`"\x7b " + strings.Join(selections, " ") + " \x7d"`. -/
def chunkDocument (queryName selectionSetQL : String) (chunk : List (Nat × String)) : String :=
  "\x7b " ++ String.intercalate " "
      (chunk.map fun p => singularSelection queryName selectionSetQL p.1 p.2)
    ++ " \x7d"

/-- Embedding of `valueAtJSONPath` (execution2.go): walk the path,
requiring a map carrying the key at every step. -/
def valueAtJSONPath : JSON → List String → Except String JSON
  | val, [] => .ok val
  | val, p :: rest =>
    match val with
    | .obj fields =>
      match lookupJ fields p with
      | some v => valueAtJSONPath v rest
      | none => .error "valueAtJSONPath: invalid path"
    | _ => .error "valueAtJSONPath: expected value to be a map"

/-- Embedding of `mapAtJSONPath` (execution2.go). -/
def mapAtJSONPath (value : JSON) (path : List String) :
    Except String (List (String × JSON)) :=
  match valueAtJSONPath value path with
  | .error err => .error err
  | .ok (.obj m) => .ok m
  | .ok _ => .error "mapAtJSONPath: expected value to be a map"

/-- The `_result` slice walk of `getBoundaryFieldResults`: every element
must be a map. -/
def collectBoundaryMaps : List JSON → Except String (List (List (String × JSON)))
  | [] => .ok []
  | e :: es =>
    match e with
    | .obj m =>
      match collectBoundaryMaps es with
      | .error err => .error err
      | .ok more => .ok (m :: more)
    | _ => .error "getBoundaryFieldResults: expected element to be a map"

/-- The numbered-alias loop of `getBoundaryFieldResults`:
`for i := 0; i < len(src); i++` reads `src[nodeAlias(i)]`, erroring on a
missing alias or a non-map value. `count` counts the remaining
iterations; the wrapper starts it at `len(src)`. -/
def collectAliasMaps (src : List (String × JSON)) :
    Nat → Nat → Except String (List (List (String × JSON)))
  | 0, _ => .ok []
  | count + 1, i =>
    match lookupJ src (nodeAlias i) with
    | none => .error "getBoundaryFieldResults: unexpected missing key"
    | some (.obj m) =>
      match collectAliasMaps src count (i + 1) with
      | .error err => .error err
      | .ok more => .ok (m :: more)
    | some _ => .error "getBoundaryFieldResults: expected value to be a map"

/-- Embedding of `getBoundaryFieldResults` (execution2.go): the array
boundary form delivers the children under `"_result"`; otherwise the
children sit under the numbered aliases `_0`, ..., `_(len(src)-1)`. -/
def getBoundaryFieldResults (src : List (String × JSON)) :
    Except String (List (List (String × JSON))) :=
  match lookupJ src "_result" with
  | some v =>
    match v with
    | .arr slice => collectBoundaryMaps slice
    | _ => .error "getBoundaryFieldResults: expected value to be a slice"
  | none => collectAliasMaps src src.length 0

/-- `ExecutionResult` of the source (its `Data` is
`map[string]interface` with braces). -/
structure ExecutionResult where
  ServiceURL : String
  InsertionPoint : List String
  Data : List (String × JSON)

/-- The `for k, v := range src` copy `ptr[k] = v` of the merger. Go map
iteration order is unspecified; for the duplicate-free key sets of real
maps the result is order-independent (see `lookupJ_copyAll`). -/
def copyAll (src dst : List (String × JSON)) : List (String × JSON) :=
  src.foldl (fun acc kv => setKey acc kv.1 kv.2) dst

/-- The `for k, v := range srcMap` loop of the list-boundary merge: each
key is copied into the `p`-submap of `dstValue`, and the submap is
re-fetched through `mapAtJSONPath(dstValue, insertionPoint[0])` on every
iteration, exactly as in the source. In Go the fetched submap is a
reference, so writing a key mutates `dstValue`; here the updated
`dstValue` is rebuilt. The inner non-map branch is unreachable: if the
fetch succeeded, `dstValue` is a map. -/
def copyIntoSubmap (p : String) : JSON → List (String × JSON) → Except String JSON
  | dstValue, [] => .ok dstValue
  | dstValue, (k, v) :: rest =>
    match mapAtJSONPath dstValue [p] with
    | .error err => .error err
    | .ok dstMap =>
      match dstValue with
      | .obj l => copyIntoSubmap p (.obj (setKey l p (.obj (setKey dstMap k v)))) rest
      | _ => .error "mapAtJSONPath: expected value to be a map"

/-- The `for _, srcValue := range srcValues` loop of the list-boundary
merge for one destination element: children whose `_id` equals the
destination's boundary ID (`dstID`, read once before the loop) are
merged into the destination's `p`-submap. `mapAtJSONPath(srcValue)` with
an empty path always succeeds (the children are maps), so it is not
re-modelled. -/
def mergeSrcValuesIntoDst (p : String) (dstID : JSON) :
    JSON → List (List (String × JSON)) → Except String JSON
  | dstValue, [] => .ok dstValue
  | dstValue, srcValue :: more =>
    match valueAtJSONPath (.obj srcValue) ["_id"] with
    | .error err => .error err
    | .ok srcID =>
      if srcID == dstID then
        match copyIntoSubmap p dstValue srcValue with
        | .error err => .error err
        | .ok dstValue' => mergeSrcValuesIntoDst p dstID dstValue' more
      else mergeSrcValuesIntoDst p dstID dstValue more

/-- The `for _, dstValue := range ptr` loop of the single-segment merge
into a destination list (`mergeExecutionResultsRec`, `[]interface`
branch): each element's boundary ID is read through
`valueAtJSONPath(dstValue, insertionPoint[0], "_id")` — the key `"_id"`
only, no `id` fallback — then matched against the source children. -/
def mergeBoundaryList (src : List (String × JSON)) (p : String) :
    List JSON → Except String (List JSON)
  | [] => .ok []
  | dstValue :: more =>
    match valueAtJSONPath dstValue [p, "_id"] with
    | .error err => .error err
    | .ok dstID =>
      match getBoundaryFieldResults src with
      | .error err => .error err
      | .ok srcValues =>
        match mergeSrcValuesIntoDst p dstID dstValue srcValues with
        | .error err => .error err
        | .ok dstValue' =>
          match mergeBoundaryList src p more with
          | .error err => .error err
          | .ok more' => .ok (dstValue' :: more')

/-- The `for _, innerPtr := range ptr` walk of the recursive merge case:
every element is merged with the unchanged insertion point. `recur` is
the enclosing recursive call. -/
def mergeListGo (recur : JSON → Except String JSON) :
    List JSON → Except String (List JSON)
  | [] => .ok []
  | e :: es =>
    match recur e with
    | .error err => .error err
    | .ok e' =>
      match mergeListGo recur es with
      | .error err => .error err
      | .ok es' => .ok (e' :: es')

/-- Embedding of `mergeExecutionResultsRec` (execution2.go), fuelled.
The three Go cases: empty insertion point (top-level key copy into the
destination map), a single segment (graft the child result at the
insertion point: object destinations take the `_0` child, list
destinations align by boundary `_id`), and two or more segments (descend
one key in a map — a missing key yields Go `nil`, rejected by the
recursive call's `default` branch before any write-back — or walk every
list element with the unchanged path). Go mutates `dst` in place; the
updated tree is returned instead. -/
def mergeExecutionResultsRecF :
    Nat → List (String × JSON) → JSON → List String → Except String JSON
  | 0, _, _, _ => .error "model: out of fuel"
  | fuel + 1, src, dst, insertionPoint =>
    match insertionPoint with
    | [] =>
      match dst with
      | .obj l => .ok (.obj (copyAll src l))
      | _ => .error "mergeExecutionResultsRec: unxpected type for top-level merge"
    | [p] =>
      match dst with
      | .obj l =>
        match mapAtJSONPath (.obj l) [p] with
        | .error err => .error err
        | .ok ptr =>
          match mapAtJSONPath (.obj src) [nodeAlias 0] with
          | .error err => .error err
          | .ok data => .ok (.obj (setKey l p (.obj (copyAll data ptr))))
      | .arr es =>
        match mergeBoundaryList src p es with
        | .error err => .error err
        | .ok es' => .ok (.arr es')
      | _ => .error "mergeExecutionResultsRec: unxpected type for non top-level merge"
    | p :: rest =>
      match dst with
      | .obj l =>
        match lookupJ l p with
        | some v =>
          match mergeExecutionResultsRecF fuel src v rest with
          | .error err => .error err
          | .ok v' => .ok (.obj (setKey l p v'))
        | none =>
          match mergeExecutionResultsRecF fuel src .null rest with
          | .error err => .error err
          | .ok v' => .ok (.obj (setKey l p v'))
      | .arr es =>
        match mergeListGo (fun e => mergeExecutionResultsRecF fuel src e (p :: rest)) es with
        | .error err => .error err
        | .ok es' => .ok (.arr es')
      | _ => .error "mergeExecutionResultsRec: unxpected type for non top-level merge"

/-- `mergeExecutionResultsRec` with its recursion budget instantiated:
every nested call descends in the tree or shortens the path. -/
def mergeExecutionResultsRec (src : List (String × JSON)) (dst : JSON)
    (insertionPoint : List String) : Except String JSON :=
  mergeExecutionResultsRecF (dst.size + insertionPoint.length + 1) src dst insertionPoint

/-- The `for _, result := range results[1:]` fold of
`mergeExecutionResults`: each later result is merged into the
accumulated tree at its insertion point; the first error aborts. In Go
the accumulator is mutated in place and stays the same map, so the
non-map branch is unreachable. -/
def mergeFold (data : List (String × JSON)) :
    List ExecutionResult → Except String (List (String × JSON))
  | [] => .ok data
  | r :: rest =>
    match mergeExecutionResultsRec r.Data (.obj data) r.InsertionPoint with
    | .error err => .error err
    | .ok (.obj l) => mergeFold l rest
    | .ok _ => .error "model: unreachable"

/-- Embedding of `mergeExecutionResults` (execution2.go): an empty list
is an error, a single result is returned unchanged, and longer lists
fold the tail into the first result's data. -/
def mergeExecutionResults : List ExecutionResult → Except String (List (String × JSON))
  | [] => .error "mergeExecutionResults: nothing to merge"
  | [r] => .ok r.Data
  | r :: rest => mergeFold r.Data rest

/-- The parent data of the repo test
`TestMergeExecutionResults/allows using both id and _id`: three gizmos
whose owners carry `id`, `id`, `_id` respectively. -/
def bothKeysGizmos : List (String × JSON) :=
  [("gizmos", .arr [
    .obj [("id", .str "1"), ("color", .str "RED"), ("owner", .obj [("id", .str "4")])],
    .obj [("id", .str "2"), ("color", .str "GREEN"), ("owner", .obj [("id", .str "5")])],
    .obj [("id", .str "3"), ("color", .str "BLUE"), ("owner", .obj [("_id", .str "6")])]])]

/-- The child result of the same test: an array-boundary `_result` whose
children carry `_id`, `id`, `id` respectively. -/
def bothKeysOwners : List (String × JSON) :=
  [("_result", .arr [
    .obj [("_id", .str "4"), ("name", .str "Owner A")],
    .obj [("id", .str "5"), ("name", .str "Owner B")],
    .obj [("id", .str "6"), ("name", .str "Owner C")]])]

/-- The first of two options that is populated: the value an
order-insensitive merge of maps with disjoint keys assigns to a key. -/
def firstSome (x y : Option JSON) : Option JSON :=
  match x with
  | some v => some v
  | none => y

/-- `ast.Type` of gqlparser as used by the bubbler: a named type or a
list type with an element type, plus the non-null flag. -/
inductive GType where
  | mk (namedType : String) (elem : Option GType) (nonNull : Bool)

def GType.NamedType : GType → String
  | .mk n _ _ => n

def GType.Elem : GType → Option GType
  | .mk _ e _ => e

def GType.NonNull : GType → Bool
  | .mk _ _ b => b

/-- `ast.Path` elements: `ast.PathName` and `ast.PathIndex`. -/
inductive PathElem where
  | name (s : String)
  | index (i : Nat)
deriving Repr, DecidableEq

/-- `GraphqlError` as produced by the bubbler. The source also carries an
`Extensions` field, always `nil` in these code paths. -/
structure GraphqlError where
  Message : String
  Path : List PathElem
deriving Repr, DecidableEq

/-- A member of `ast.SelectionSet` as consumed by the bubbler: a field
(with its alias, its definition's type, and `nil` or a selection set —
gqlparser leaves the selection set `nil` on leaves), a fragment spread
(the bubbler reads `fragment.Definition.SelectionSet`), or an inline
fragment. -/
inductive Selection where
  | field (fieldAlias fieldName : String) (defType : GType) (selectionSet : Option (List Selection))
  | fragmentSpread (typeCondition : String) (selectionSet : List Selection)
  | inlineFragment (typeCondition : String) (selectionSet : List Selection)

mutual

/-- Computable size of a selection, used only for recursion budgets. -/
def Selection.size : Selection → Nat
  | .field _ _ _ none => 1
  | .field _ _ _ (some subsel) => 1 + Selection.sizeList subsel
  | .fragmentSpread _ ss => 1 + Selection.sizeList ss
  | .inlineFragment _ ss => 1 + Selection.sizeList ss

def Selection.sizeList : List Selection → Nat
  | [] => 0
  | s :: rest => 1 + Selection.size s + Selection.sizeList rest

end

/-- Go's `value == nil` test on a dynamic value: both a JSON `null` and a
missing map key are the nil interface. -/
def JSON.isNull : JSON → Bool
  | .null => true
  | _ => false

/-- The `for _, selection := range selectionSet` loop of
`bubbleUpNullValuesInPlaceRec` on a map value, mirroring the source
selection by selection; `recur` is the enclosing recursive call and
`bubbleUp` the running flag of the Go loop:

* a field with a selection set recurses on `result[field.Alias]` with the
  field's type and the alias appended to the path; when the child
  bubbles, a non-null field sets the flag (keeping the mutated child)
  and a nullable field writes `nil` over the alias; the child's errors
  are appended;
* a leaf field checks `value == nil && field.Definition.Type.NonNull`,
  appending the error with message "TODO" and setting the flag;
* a fragment spread recurses on the same map with the fragment
  definition's selections — with NO check of the object's `__typename`
  against the type condition — and then OVERWRITES the running flag with
  the child flag (`bubbleUp = lowerBubbleUp`, a plain assignment);
* an inline fragment is not handled: it falls to the `default` branch,
  "unknown selection type".

In Go the child is mutated through the map reference, so the updated
child is written back over the alias here; a successful child call means
the alias was present, so the write-back is a replacement. The non-map
branch after a fragment spread is unreachable: the recursion maps a map
to a map. -/
def bubbleSelectionsGo
    (recur : Option GType → List Selection → JSON → List PathElem →
      Except String (List GraphqlError × Bool × JSON))
    (currentType : Option GType) (path : List PathElem) :
    List Selection → List (String × JSON) → Bool →
    Except String (List GraphqlError × Bool × List (String × JSON))
  | [], fields, bubbleUp => .ok ([], bubbleUp, fields)
  | .field al _nm ty subsel :: rest, fields, bubbleUp =>
    match subsel with
    | some subselS =>
      match recur (some ty) subselS ((lookupJ fields al).getD .null) (path ++ [.name al]) with
      | .error err => .error err
      | .ok (lowerErrs, lowerBub, value') =>
        let fields' :=
          if lowerBub then
            if ty.NonNull then setKey fields al value'
            else setKey fields al .null
          else setKey fields al value'
        let bubbleUp' := if lowerBub && ty.NonNull then true else bubbleUp
        match bubbleSelectionsGo recur currentType path rest fields' bubbleUp' with
        | .error err => .error err
        | .ok (errs, bub, fields'') => .ok (lowerErrs ++ errs, bub, fields'')
    | none =>
      if ((lookupJ fields al).getD .null).isNull && ty.NonNull then
        match bubbleSelectionsGo recur currentType path rest fields true with
        | .error err => .error err
        | .ok (errs, bub, fields'') =>
          .ok (⟨"TODO", path ++ [.name al]⟩ :: errs, bub, fields'')
      else
        bubbleSelectionsGo recur currentType path rest fields bubbleUp
  | .fragmentSpread _tc fragSel :: rest, fields, _bubbleUp =>
    match recur currentType fragSel (.obj fields) path with
    | .error err => .error err
    | .ok (lowerErrs, lowerBub, result') =>
      match result' with
      | .obj fields' =>
        match bubbleSelectionsGo recur currentType path rest fields' lowerBub with
        | .error err => .error err
        | .ok (errs, bub, fields'') => .ok (lowerErrs ++ errs, bub, fields'')
      | _ => .error "model: unreachable"
  | .inlineFragment _ _ :: _, _, _ => .error "unknown selection type: *ast.InlineFragment"

/-- The `for i, value := range result` loop of
`bubbleUpNullValuesInPlaceRec` on a list value: every element is walked
with its index appended to the path and the unchanged selection set
(captured in `recur`); when an element bubbles, the code reads
`currentType.Elem.NonNull` — a nil `currentType` or `Elem` is a Go
nil-pointer panic — and either sets the running flag (non-null element
type, keeping the mutated element) or writes `nil` over that index
(nullable element type); the element's errors are appended. -/
def bubbleElemsGo
    (recur : JSON → List PathElem → Except String (List GraphqlError × Bool × JSON))
    (currentType : Option GType) (path : List PathElem) :
    List JSON → Nat → Bool →
    Except String (List GraphqlError × Bool × List JSON)
  | [], _, bubbleUp => .ok ([], bubbleUp, [])
  | x :: xs, i, bubbleUp =>
    match recur x (path ++ [.index i]) with
    | .error err => .error err
    | .ok (lowerErrs, lowerBub, x') =>
      if lowerBub then
        match currentType with
        | none => .error "panic: invalid memory address or nil pointer dereference"
        | some t =>
          match t.Elem with
          | none => .error "panic: invalid memory address or nil pointer dereference"
          | some e =>
            if e.NonNull then
              match bubbleElemsGo recur currentType path xs (i + 1) true with
              | .error err => .error err
              | .ok (errs, bub, xs') => .ok (lowerErrs ++ errs, bub, x' :: xs')
            else
              match bubbleElemsGo recur currentType path xs (i + 1) bubbleUp with
              | .error err => .error err
              | .ok (errs, bub, xs') => .ok (lowerErrs ++ errs, bub, JSON.null :: xs')
      else
        match bubbleElemsGo recur currentType path xs (i + 1) bubbleUp with
        | .error err => .error err
        | .ok (errs, bub, xs') => .ok (lowerErrs ++ errs, bub, x' :: xs')

/-- Embedding of `bubbleUpNullValuesInPlaceRec` (execution2.go), fuelled.
A map value walks its selection set, a list value walks its elements,
and anything else — including Go `nil` — is the `default` error. The
`schema` parameter of the source is threaded through the recursion but
never read (the fragment-spread case carries a FIXME instead of the
type-condition check), so it is omitted. Both running accumulators
(`errs`, `bubbleUp`) start at their Go zero values. -/
def bubbleRecF :
    Nat → Option GType → List Selection → JSON → List PathElem →
    Except String (List GraphqlError × Bool × JSON)
  | 0, _, _, _, _ => .error "model: out of fuel"
  | fuel + 1, currentType, selectionSet, result, path =>
    match result with
    | .obj fields =>
      match bubbleSelectionsGo (bubbleRecF fuel) currentType path selectionSet fields false with
      | .error err => .error err
      | .ok (errs, bub, fields') => .ok (errs, bub, .obj fields')
    | .arr elems =>
      match bubbleElemsGo (fun v p => bubbleRecF fuel currentType selectionSet v p)
          currentType path elems 0 false with
      | .error err => .error err
      | .ok (errs, bub, elems') => .ok (errs, bub, .arr elems')
    | _ => .error "bubbleUpNullValuesInPlaceRec: unxpected result type"

/-- `bubbleUpNullValuesInPlaceRec` with its recursion budget
instantiated: nested calls descend in the selection set (map case) or in
the tree (list case), and bubbling never grows a value, so the product
bound is always enough. -/
def bubbleUpNullValuesInPlaceRec (currentType : Option GType) (selectionSet : List Selection)
    (result : JSON) (path : List PathElem) :
    Except String (List GraphqlError × Bool × JSON) :=
  bubbleRecF ((Selection.sizeList selectionSet + 1) * (result.size + 1) + 1)
    currentType selectionSet result path

/-- Embedding of `bubbleUpNullValuesInPlace` (execution2.go): run the
recursive walk from the root (`currentType` nil, empty path); a true
`bubbleUp` is turned into the sentinel `ErrNullBubbledToRoot` — and the
collected errors are DROPPED (`return nil, ErrNullBubbledToRoot`).
Otherwise the errors and the updated tree are returned. -/
def bubbleUpNullValuesInPlace (selectionSet : List Selection)
    (result : List (String × JSON)) :
    Except String (List GraphqlError × List (String × JSON)) :=
  match bubbleUpNullValuesInPlaceRec none selectionSet (.obj result) [] with
  | .error err => .error err
  | .ok (errs, bubbleUp, result') =>
    if bubbleUp then .error "bubbleUpNullValuesInPlace: null bubbled up to root"
    else
      match result' with
      | .obj fields => .ok (errs, fields)
      | _ => .error "model: unreachable"

/-- Query type of the repo bubbling tests: `ID!`. -/
def idTy : GType := .mk "ID" none true

/-- `String!`. -/
def stringNonNullTy : GType := .mk "String" none true

/-- `Gizmo!`. -/
def gizmoNonNullTy : GType := .mk "Gizmo" none true

/-- `[Gizmo!]` — nullable list of non-null elements. -/
def gizmoListNullableTy : GType := .mk "" (some gizmoNonNullTy) false

/-- `[Gizmo!]!` — non-null list of non-null elements. -/
def gizmoListNonNullTy : GType := .mk "" (some gizmoNonNullTy) true

/-- The leaf selections of the query `gizmos: id color` against
`Gizmo: id ID!, color String!`. -/
def gizmoLeafSelections : List Selection :=
  [.field "id" "id" idTy none, .field "color" "color" stringNonNullTy none]

/-- The parsed query `gizmos: id color` when `gizmos : [Gizmo!]`. -/
def gizmosQueryNullable : List Selection :=
  [.field "gizmos" "gizmos" gizmoListNullableTy (some gizmoLeafSelections)]

/-- The parsed query when `gizmos : [Gizmo!]!`. -/
def gizmosQueryNonNull : List Selection :=
  [.field "gizmos" "gizmos" gizmoListNonNullTy (some gizmoLeafSelections)]

/-- The merged data of the bubbling tests: the third gizmo's non-null
`color` is null. -/
def gizmosNullColorData : List (String × JSON) :=
  [("gizmos", .arr [
    .obj [("id", .str "GIZMO1"), ("color", .str "RED")],
    .obj [("id", .str "GIZMO2"), ("color", .str "GREEN")],
    .obj [("id", .str "GIZMO3"), ("color", .null)]])]

/-- The data of the repo test `works with inline fragments`: every gizmo
carries its `__typename`, and the third one's non-null `color` is null. -/
def gizmosWithTypenameData : List (String × JSON) :=
  [("gizmos", .arr [
    .obj [("id", .str "GIZMO1"), ("color", .str "RED"), ("__typename", .str "Gizmo")],
    .obj [("id", .str "GIZMO2"), ("color", .str "GREEN"), ("__typename", .str "Gizmo")],
    .obj [("id", .str "GIZMO3"), ("color", .null), ("__typename", .str "Gizmo")]])]

/-- The parsed query of the same test:
`gizmos: (... on Gizmo: id color __typename)`. -/
def gizmosInlineFragmentQuery : List Selection :=
  [.field "gizmos" "gizmos" gizmoListNullableTy (some
    [.inlineFragment "Gizmo" [
      .field "id" "id" idTy none,
      .field "color" "color" stringNonNullTy none,
      .field "__typename" "__typename" stringNonNullTy none]])]

/-- `Critter!` (interface) and `[Critter]!`: nullable elements. -/
def critterListTy : GType := .mk "" (some (.mk "Critter" none false)) true

/-- A query whose fragment spread has type condition `Gizmo` with a
non-null `color` selection. -/
def critterSpreadQuery : List Selection :=
  [.field "critters" "critters" critterListTy (some
    [.fragmentSpread "Gizmo" [.field "color" "color" stringNonNullTy none]])]

/-- Data whose only critter is a Gremlin (`__typename` is `"Gremlin"`,
and it has no `color` field). -/
def gremlinOnlyData : List (String × JSON) :=
  [("critters", .arr [
    .obj [("id", .str "GREMLIN1"), ("name", .str "Spikey"), ("__typename", .str "Gremlin")]])]

/-- `Gizmo` as a nullable element type, for the C6 witness. -/
def nullableGizmoTy : GType := .mk "Gizmo" none false

/-- `[Gizmo]` with nullable elements, for the C6 witness. -/
def nullableElemListTy : GType := .mk "" (some nullableGizmoTy) false

/-- C1: `extractBoundaryIDs` does NOT fall back to `id` when `_id` is
absent: on the mixed-keys data of the claim (and of the repo test
`TestExtractBoundaryIDs`, which expects `["1", "1", "2", "5"]` and no
error) it fails at the second owner, which carries only `id`, with the
missing-`_id` error instead of succeeding. -/
theorem extractBoundaryIDs_mixedKeys_errors :
    extractBoundaryIDs mixedKeysGizmosData ["gizmos", "owner"]
      = .error "extractBoundaryIDs: unexpected missing _id in map" := rfl

theorem enumFrom_take {α : Type} :
    ∀ (l : List α) (n B : Nat), (List.enumFrom n l).take B = List.enumFrom n (l.take B) := by
  intro l
  induction l with
  | nil => intro n B; simp
  | cons x xs ih =>
    intro n B
    cases B with
    | zero => simp
    | succ b => simp [List.enumFrom, ih]

theorem enumFrom_drop {α : Type} :
    ∀ (l : List α) (n B : Nat), (List.enumFrom n l).drop B = List.enumFrom (n + B) (l.drop B) := by
  intro l
  induction l with
  | nil => intro n B; simp
  | cons x xs ih =>
    intro n B
    cases B with
    | zero => simp
    | succ b =>
      have : n + (b + 1) = (n + 1) + b := by omega
      simp [List.enumFrom, ih, this]

theorem batchByF_join {α : Type} :
    ∀ (fuel : Nat) (items : List α) (B : Nat), items.length < fuel → 1 ≤ B →
      (batchByF fuel items B).flatten = items := by
  intro fuel
  induction fuel with
  | zero => intro items B h _; omega
  | succ f ih =>
    intro items B h hB
    rw [batchByF]
    split
    · rename_i hlt
      have : (items.drop B).length < f := by simp; omega
      simp [ih (items.drop B) B this hB]
    · simp

theorem batchByF_chunk_le {α : Type} :
    ∀ (fuel : Nat) (items : List α) (B : Nat), items.length < fuel → 1 ≤ B →
      ∀ c ∈ batchByF fuel items B, c.length ≤ B := by
  intro fuel
  induction fuel with
  | zero => intro items B h _; omega
  | succ f ih =>
    intro items B h hB c hc
    rw [batchByF] at hc
    split at hc
    · rename_i hlt
      rcases List.mem_cons.mp hc with rfl | hc
      · simp
      · exact ih (items.drop B) B (by simp; omega) hB c hc
    · rename_i hge
      rcases List.mem_cons.mp hc with rfl | hc
      · omega
      · simp at hc

theorem batchByF_ne_nil {α : Type} (fuel : Nat) (items : List α) (B : Nat) :
    batchByF fuel items B ≠ [] := by
  cases fuel with
  | zero => simp [batchByF]
  | succ f => rw [batchByF]; split <;> simp

theorem batchByF_dropLast_length {α : Type} :
    ∀ (fuel : Nat) (items : List α) (B : Nat), items.length < fuel → 1 ≤ B →
      ∀ c ∈ (batchByF fuel items B).dropLast, c.length = B := by
  intro fuel
  induction fuel with
  | zero => intro items B h _; omega
  | succ f ih =>
    intro items B h hB c hc
    rw [batchByF] at hc
    split at hc
    · rename_i hlt
      rw [List.dropLast_cons_of_ne_nil (batchByF_ne_nil f (items.drop B) B)] at hc
      rcases List.mem_cons.mp hc with rfl | hc
      · simp; omega
      · exact ih (items.drop B) B (by simp; omega) hB c hc
    · simp at hc

theorem buildDocsAux_batchByF (queryName selectionSetQL : String) (B : Nat) :
    ∀ (fuel : Nat) (l : List String) (idx : Nat), l.length < fuel → 1 ≤ B →
      buildDocsAux queryName selectionSetQL (batchByF fuel l B) idx
        = (batchByF fuel (List.enumFrom idx l) B).map
            (chunkDocument queryName selectionSetQL) := by
  intro fuel
  induction fuel with
  | zero => intro l idx h _; omega
  | succ f ih =>
    intro l idx h hB
    rw [batchByF, batchByF]
    simp only [List.enumFrom_length]
    split
    · rename_i hlt
      rw [enumFrom_take, enumFrom_drop]
      simp only [buildDocsAux, List.map_cons, chunkDocument]
      have hlen : (l.take B).length = B := by simp; omega
      rw [hlen, ih (l.drop B) (idx + B) (by simp; omega) hB]
    · simp [buildDocsAux, chunkDocument]

/-- C8: building singular-form boundary documents partitions the ids into
consecutive chunks of size `B` (`join` of the batches restores the id
list; every batch before the last has length exactly `B`, and none
exceeds `B`), emits one document per chunk, and numbers the selections by
a counter that starts at 0 and keeps increasing across chunks: the
document list equals the chunking of the globally enumerated id list,
each entry rendered with its global index, so alias `_i` always holds the
i-th input id. -/
theorem buildBoundaryQueryDocuments_batches (queryName selectionSetQL : String)
    (ids : List String) (B : Nat) (hB : 1 ≤ B) :
    buildBoundaryQueryDocuments selectionSetQL ids ⟨queryName, false⟩ B
      = (batchBy (List.enum ids) B).map (chunkDocument queryName selectionSetQL)
    ∧ (batchBy ids B).flatten = ids
    ∧ (∀ c ∈ (batchBy ids B).dropLast, c.length = B)
    ∧ ∀ c ∈ batchBy ids B, c.length ≤ B := by
  refine ⟨?_, ?_, ?_, ?_⟩
  · show buildDocsAux queryName selectionSetQL (batchByF (ids.length + 1) ids B) 0
      = (batchByF ((List.enum ids).length + 1) (List.enum ids) B).map
          (chunkDocument queryName selectionSetQL)
    rw [List.enum_length]
    exact buildDocsAux_batchByF queryName selectionSetQL B (ids.length + 1) ids 0
      (by omega) hB
  · exact batchByF_join (ids.length + 1) ids B (by omega) hB
  · exact batchByF_dropLast_length (ids.length + 1) ids B (by omega) hB
  · exact batchByF_chunk_le (ids.length + 1) ids B (by omega) hB

/-- Witness for C8 at the repo test
`TestBuildBatchedNonArrayBoundaryQueryDocuments`: ids `["1","2","3"]`,
batch size 2, selection `\x7b _id: id name \x7d`; the two emitted
documents are exactly the test's expected strings, with aliases `_0`,
`_1` in the first document and `_2` in the second. -/
theorem buildBoundaryQueryDocuments_batches_witness :
    1 ≤ 2
    ∧ buildBoundaryQueryDocuments "\x7b _id: id name \x7d" ["1", "2", "3"]
        ⟨"getOwner", false⟩ 2
      = ["\x7b _0: getOwner(id: \"1\") \x7b _id: id name \x7d _1: getOwner(id: \"2\") \x7b _id: id name \x7d \x7d",
         "\x7b _2: getOwner(id: \"3\") \x7b _id: id name \x7d \x7d"]
    ∧ (buildBoundaryQueryDocuments "\x7b _id: id name \x7d" ["1", "2", "3"]
          ⟨"getOwner", false⟩ 2
        = (batchBy (List.enum ["1", "2", "3"]) 2).map (chunkDocument "getOwner" "\x7b _id: id name \x7d")
      ∧ (batchBy ["1", "2", "3"] 2).flatten = ["1", "2", "3"]
      ∧ (∀ c ∈ (batchBy ["1", "2", "3"] 2).dropLast, c.length = 2)
      ∧ ∀ c ∈ batchBy ["1", "2", "3"] 2, c.length ≤ 2) :=
  ⟨by decide, rfl,
    buildBoundaryQueryDocuments_batches "getOwner" "\x7b _id: id name \x7d"
      ["1", "2", "3"] 2 (by decide)⟩

/-- C2: the merger reads the destination boundary identity through
`valueAtJSONPath(dstValue, insertionPoint[0], "_id")` — `"_id"` only —
so a destination boundary object carrying only `id` makes the whole
merge fail with "invalid path" instead of being matched and merged. The
repo test `allows using both id and _id` runs exactly this merge and
expects it to succeed with the owners merged. -/
theorem mergeExecutionResults_idOnly_errors :
    mergeExecutionResults
      [⟨"http://service-a", [], bothKeysGizmos⟩,
       ⟨"http://service-b", ["gizmos", "owner"], bothKeysOwners⟩]
      = .error "valueAtJSONPath: invalid path" := rfl

theorem lookupJ_setKey (m : List (String × JSON)) (k : String) (v : JSON) (k' : String) :
    lookupJ (setKey m k v) k' = if k' = k then some v else lookupJ m k' := by
  induction m with
  | nil =>
    by_cases h : k' = k
    · subst h; simp [setKey, lookupJ]
    · simp [setKey, lookupJ, h, Ne.symm h]
  | cons hd tl ih =>
    obtain ⟨k₀, v₀⟩ := hd
    by_cases h : k₀ = k
    · subst h
      by_cases h' : k' = k₀
      · subst h'; simp [setKey, lookupJ]
      · simp [setKey, lookupJ, h', Ne.symm h']
    · by_cases h' : k' = k₀
      · subst h'
        simp [setKey, lookupJ, h]
      · simp [setKey, lookupJ, h, Ne.symm h', ih]

theorem lookupJ_mem {l : List (String × JSON)} {k : String} {v : JSON}
    (h : lookupJ l k = some v) : k ∈ l.map Prod.fst := by
  induction l with
  | nil => simp [lookupJ] at h
  | cons hd tl ih =>
    obtain ⟨k₀, v₀⟩ := hd
    rw [lookupJ] at h
    split at h <;> rename_i h'
    · simp [h'.symm]
    · simp only [List.map_cons, List.mem_cons]
      exact Or.inr (ih h)

theorem lookupJ_eq_none (l : List (String × JSON)) (k : String)
    (h : k ∉ l.map Prod.fst) : lookupJ l k = none := by
  induction l with
  | nil => rfl
  | cons hd tl ih =>
    obtain ⟨k₀, v₀⟩ := hd
    simp only [List.map_cons, List.mem_cons] at h
    push_neg at h
    simp only [lookupJ]
    split <;> rename_i h'
    · exact absurd h'.symm h.1
    · exact ih h.2

theorem lookupJ_copyAll (src : List (String × JSON)) :
    ∀ (dst : List (String × JSON)) (k : String), (src.map Prod.fst).Nodup →
      lookupJ (copyAll src dst) k = firstSome (lookupJ src k) (lookupJ dst k) := by
  induction src with
  | nil =>
    intro dst k _
    simp [copyAll, lookupJ, firstSome]
  | cons hd tl ih =>
    obtain ⟨k₀, v₀⟩ := hd
    intro dst k hnd
    simp only [List.map_cons, List.nodup_cons] at hnd
    have step : copyAll ((k₀, v₀) :: tl) dst = copyAll tl (setKey dst k₀ v₀) := by
      simp [copyAll]
    rw [step, ih (setKey dst k₀ v₀) k hnd.2, lookupJ_setKey]
    simp only [lookupJ]
    by_cases hk : k = k₀
    · subst hk
      rw [lookupJ_eq_none tl k hnd.1]
      simp [firstSome]
    · rw [if_neg hk, if_neg (Ne.symm hk)]

/-- C9: merging two root results (empty insertion points) with disjoint
top-level keys succeeds in either order and produces the same tree — the
union of the two maps: every key is answered by whichever of the two
data maps carries it. (`Nodup` key lists state that the association
lists model Go maps.) -/
theorem mergeExecutionResults_disjoint_comm (a b : ExecutionResult)
    (ha : a.InsertionPoint = []) (hb : b.InsertionPoint = [])
    (hd : ∀ k ∈ a.Data.map Prod.fst, k ∉ b.Data.map Prod.fst)
    (hna : (a.Data.map Prod.fst).Nodup) (hnb : (b.Data.map Prod.fst).Nodup) :
    ∃ m₁ m₂,
      mergeExecutionResults [a, b] = .ok m₁
      ∧ mergeExecutionResults [b, a] = .ok m₂
      ∧ ∀ k, lookupJ m₁ k = firstSome (lookupJ a.Data k) (lookupJ b.Data k)
          ∧ lookupJ m₂ k = firstSome (lookupJ a.Data k) (lookupJ b.Data k) := by
  refine ⟨copyAll b.Data a.Data, copyAll a.Data b.Data, ?_, ?_, ?_⟩
  · show mergeFold a.Data [b] = _
    simp only [mergeFold, mergeExecutionResultsRec, hb]
    simp only [mergeExecutionResultsRecF]
  · show mergeFold b.Data [a] = _
    simp only [mergeFold, mergeExecutionResultsRec, ha]
    simp only [mergeExecutionResultsRecF]
  · intro k
    constructor
    · rw [lookupJ_copyAll b.Data a.Data k hnb]
      rcases h1 : lookupJ a.Data k with _ | v
      · rcases h2 : lookupJ b.Data k with _ | w <;> simp [firstSome]
      · have hb0 : lookupJ b.Data k = none :=
          lookupJ_eq_none b.Data k (hd k (lookupJ_mem h1))
        simp [hb0, firstSome]
    · rw [lookupJ_copyAll a.Data b.Data k hna]

/-- Witness for C9 at the repo test
`TestMergeExecutionResults/merges two top level results`: the two
single-key root results `gizmoA` and `gizmoB` merge in either order to
the union map. -/
theorem mergeExecutionResults_disjoint_comm_witness :
    (let a : ExecutionResult :=
      ⟨"http://service-a", [], [("gizmoA", .obj [("id", .str "1"), ("color", .str "Gizmo A")])]⟩
     let b : ExecutionResult :=
      ⟨"http://service-b", [], [("gizmoB", .obj [("id", .str "2"), ("color", .str "Gizmo B")])]⟩
     ∃ m₁ m₂,
      mergeExecutionResults [a, b] = .ok m₁
      ∧ mergeExecutionResults [b, a] = .ok m₂
      ∧ ∀ k, lookupJ m₁ k = firstSome (lookupJ a.Data k) (lookupJ b.Data k)
          ∧ lookupJ m₂ k = firstSome (lookupJ a.Data k) (lookupJ b.Data k)) :=
  mergeExecutionResults_disjoint_comm _ _ rfl rfl (by decide) (by decide) (by decide)

/-- C10: merging an empty result list is the "nothing to merge" error,
and merging a single result returns its `Data` unchanged. -/
theorem mergeExecutionResults_empty_and_single :
    mergeExecutionResults [] = .error "mergeExecutionResults: nothing to merge"
    ∧ ∀ r : ExecutionResult, mergeExecutionResults [r] = .ok r.Data :=
  ⟨rfl, fun _ => rfl⟩

/-- C4: at the unexpected null of the bubble-to-middle test the bubbler
emits exactly one error, with the alias path `gizmos[2].color`, and the
field bubbles — but the message is literally "TODO", not the
"field failed to resolve" the repo tests (and the claim) expect. -/
theorem bubbleUp_message_is_TODO :
    bubbleUpNullValuesInPlace gizmosQueryNullable gizmosNullColorData
      = .ok ([⟨"TODO", [.name "gizmos", .index 2, .name "color"]⟩], [("gizmos", JSON.null)])
    ∧ "TODO" ≠ "field failed to resolve" :=
  ⟨rfl, by decide⟩

/-- C5 counterexample: with `gizmos : [Gizmo!]` and the third element's
non-null `color` null, bubbling does NOT leave the list with a null
element: the non-null element type bubbles past the element, and the
nullable `gizmos` field itself becomes null, so the updated data is
`gizmos: null` and not the claimed list `[g1, g2, null]`. -/
theorem bubbleUp_nonNullElem_not_middle :
    bubbleUpNullValuesInPlace gizmosQueryNullable gizmosNullColorData
      = .ok ([⟨"TODO", [.name "gizmos", .index 2, .name "color"]⟩], [("gizmos", JSON.null)])
    ∧ [("gizmos", JSON.null)]
      ≠ [("gizmos", JSON.arr [
          .obj [("id", .str "GIZMO1"), ("color", .str "RED")],
          .obj [("id", .str "GIZMO2"), ("color", .str "GREEN")],
          JSON.null])] :=
  ⟨rfl, by intro h; injection h with h1 _; injection h1 with _ hb; exact JSON.noConfusion hb⟩

/-- C5 amended: with `gizmos : [Gizmo!]` the element's bubble propagates
through the non-null element type to the whole list, and the nullable
`gizmos` field absorbs it: the entire `gizmos` field becomes null, with
the single error at path `gizmos[2].color` (its message is the source's
"TODO"). -/
theorem bubbleUp_nonNullElem_bubbles_to_field :
    bubbleUpNullValuesInPlace gizmosQueryNullable gizmosNullColorData
      = .ok ([⟨"TODO", [.name "gizmos", .index 2, .name "color"]⟩], [("gizmos", JSON.null)]) :=
  rfl

/-- C3: when bubbling reaches the root (`gizmos : [Gizmo!]!`), the
recursive walk has collected exactly one non-null-violation error and
signals bubble — but `bubbleUpNullValuesInPlace` returns only the
`ErrNullBubbledToRoot` sentinel and DROPS the collected errors (`return
nil, ErrNullBubbledToRoot`), so no error from the bubbling survives into
the response (`ExecuteQuery` additionally discards the returned error
slot, `_, err = bubbleUpNullValuesInPlace(...)`). -/
theorem bubbleUp_root_drops_errors :
    bubbleUpNullValuesInPlaceRec none gizmosQueryNonNull (.obj gizmosNullColorData) []
      = .ok ([⟨"TODO", [.name "gizmos", .index 2, .name "color"]⟩], true,
          .obj gizmosNullColorData)
    ∧ bubbleUpNullValuesInPlace gizmosQueryNonNull gizmosNullColorData
      = .error "bubbleUpNullValuesInPlace: null bubbled up to root" :=
  ⟨rfl, rfl⟩

/-- C7: the bubbler does not implement the claimed fragment semantics.
(1) An inline fragment is not descended at all: walking the selection
set of the repo test `works with inline fragments` fails with "unknown
selection type" (the test expects it to succeed). (2) A fragment spread
ignores the object's `__typename`: a spread on type `Gizmo` is applied
to an object whose `__typename` is `"Gremlin"`, so the Gremlin is
reported as missing the non-null `color` and nulled out, where the claim
requires the spread to be skipped for that object. -/
theorem bubbleUp_fragments_not_honored :
    bubbleUpNullValuesInPlace gizmosInlineFragmentQuery gizmosWithTypenameData
      = .error "unknown selection type: *ast.InlineFragment"
    ∧ bubbleUpNullValuesInPlace critterSpreadQuery gremlinOnlyData
      = .ok ([⟨"TODO", [.name "critters", .index 0, .name "color"]⟩],
          [("critters", .arr [JSON.null])]) :=
  ⟨rfl, rfl⟩

theorem bubbleElemsGo_spec
    (recur : JSON → List PathElem → Except String (List GraphqlError × Bool × JSON))
    (t e : GType) (path : List PathElem) (he : t.Elem = some e) :
    ∀ (xs : List JSON) (out : List (List GraphqlError × Bool × JSON))
      (i : Nat) (bubAcc : Bool) (hlen : out.length = xs.length),
      (∀ j (hj : j < xs.length),
        recur (xs.get ⟨j, hj⟩) (path ++ [.index (i + j)]) = .ok (out.get ⟨j, by omega⟩)) →
      bubbleElemsGo recur (some t) path xs i bubAcc
        = .ok ((out.map fun r => r.1).flatten,
               bubAcc || (e.NonNull && out.any fun r => r.2.1),
               out.map fun r => if r.2.1 && !e.NonNull then JSON.null else r.2.2) := by
  intro xs
  induction xs with
  | nil =>
    intro out i bubAcc hlen h
    have hout : out = [] := List.eq_nil_of_length_eq_zero hlen
    subst hout
    simp [bubbleElemsGo]
  | cons x xs ih =>
    intro out i bubAcc hlen h
    cases out with
    | nil => simp at hlen
    | cons r out' =>
      obtain ⟨errs0, bub0, x0⟩ := r
      have h0 : recur x (path ++ [.index i]) = .ok (errs0, bub0, x0) := by
        have hh := h 0 (by simp)
        simpa using hh
      have hlen' : out'.length = xs.length := by simpa using hlen
      have h' : ∀ j (hj : j < xs.length),
          recur (xs.get ⟨j, hj⟩) (path ++ [.index (i + 1 + j)])
            = .ok (out'.get ⟨j, by omega⟩) := by
        intro j hj
        have hh := h (j + 1) (by simpa using Nat.succ_lt_succ hj)
        have harith : i + (j + 1) = i + 1 + j := by omega
        simpa [harith] using hh
      simp only [bubbleElemsGo]
      rw [h0]
      cases bub0 with
      | false =>
        simp only [Bool.false_eq_true, if_false]
        rw [ih out' (i + 1) bubAcc hlen' h']
        simp [Bool.or_assoc, Bool.and_or_distrib_left]
      | true =>
        dsimp only
        rw [if_pos rfl]
        obtain ⟨nm, el, nn⟩ := t
        simp only [GType.Elem] at he
        subst he
        simp only [GType.Elem]
        cases hN : e.NonNull with
        | true =>
          rw [if_pos rfl, ih out' (i + 1) true hlen' h']
          simp [hN]
        | false =>
          simp only [Bool.false_eq_true, if_false]
          rw [ih out' (i + 1) bubAcc hlen' h']
          simp [hN]

/-- C6: the list walk of the null-bubbler, characterized by the outcomes
of its element calls. If for every index `j` the bubbler maps element
`j` — visited with `j` appended to the error path and the unchanged
selection set — to errors, a bubble flag, and an updated element, then
on the whole list it returns the elements' errors concatenated in
order; it bubbles exactly when the element type is non-null and some
element bubbled; and the updated list keeps each updated element except
that, when the element type is nullable, every bubbled index is
overwritten with null (and its bubble stops there). The element type is
read from `currentType.Elem`. -/
theorem bubbleRec_list_walk (fuel : Nat) (t e : GType) (selectionSet : List Selection)
    (xs : List JSON) (path : List PathElem)
    (out : List (List GraphqlError × Bool × JSON))
    (he : t.Elem = some e) (hlen : out.length = xs.length)
    (h : ∀ j (hj : j < xs.length),
      bubbleRecF fuel (some t) selectionSet (xs.get ⟨j, hj⟩) (path ++ [.index j])
        = .ok (out.get ⟨j, by omega⟩)) :
    bubbleRecF (fuel + 1) (some t) selectionSet (.arr xs) path
      = .ok ((out.map fun r => r.1).flatten,
             e.NonNull && out.any (fun r => r.2.1),
             .arr (out.map fun r => if r.2.1 && !e.NonNull then JSON.null else r.2.2)) := by
  have hspec := bubbleElemsGo_spec (fun v p => bubbleRecF fuel (some t) selectionSet v p)
    t e path he xs out 0 false hlen (by intro j hj; simpa using h j hj)
  rw [bubbleRecF, hspec]
  simp

/-- Witness for C6: a two-element list under `[Gizmo]` (nullable
elements) where the second element's non-null `color` is null: the
element errors at path `gizmos[1].color` and bubbles, the nullable
element type converts that into a null at index 1, the first element is
kept, and the list itself does not bubble. -/
theorem bubbleRec_list_walk_witness :
    ((nullableElemListTy.Elem = some nullableGizmoTy)
    ∧ ([(([] : List GraphqlError), false, JSON.obj [("color", .str "RED")]),
        ([⟨"TODO", [.name "gizmos", .index 1, .name "color"]⟩], true,
          JSON.obj [("color", JSON.null)])].length
        = [JSON.obj [("color", .str "RED")], JSON.obj [("color", JSON.null)]].length))
    ∧ bubbleRecF 3 (some nullableElemListTy) [.field "color" "color" stringNonNullTy none]
        (.arr [JSON.obj [("color", .str "RED")], JSON.obj [("color", JSON.null)]])
        [.name "gizmos"]
      = .ok ([⟨"TODO", [.name "gizmos", .index 1, .name "color"]⟩], false,
          .arr [JSON.obj [("color", .str "RED")], JSON.null]) :=
  ⟨⟨rfl, rfl⟩,
    bubbleRec_list_walk 2 nullableElemListTy nullableGizmoTy
      [.field "color" "color" stringNonNullTy none]
      [JSON.obj [("color", .str "RED")], JSON.obj [("color", JSON.null)]]
      [.name "gizmos"]
      [(([] : List GraphqlError), false, JSON.obj [("color", .str "RED")]),
       ([⟨"TODO", [.name "gizmos", .index 1, .name "color"]⟩], true,
         JSON.obj [("color", JSON.null)])]
      rfl rfl (by
        intro j hj
        rcases j with _ | _ | j
        · rfl
        · rfl
        · simp at hj
          omega)⟩

end Bramble
